import Mathlib

/-!
Shallow embedding of the IMiss record-and-replay core
(src-tauri/src/replay.rs and src-tauri/src/hooks.rs).

Modelling conventions:
* Rust machine integers become `Nat`/`Int`; casts that can wrap are written
  with explicit `% 2 ^ w`.
* `f32` fields (`speed_multiplier`, the progress percentage) are modelled as
  exact `Rat` arithmetic.
* The OS input API (`SetCursorPos`, `SendInput`, `SetWindowsHookExA`,
  `UnhookWindowsHookEx`) is abstracted: `execute_event` takes an oracle
  `osOk : OsCall → Bool` deciding whether each OS call succeeds and returns
  the trace of OS calls it attempted; `install_hooks` takes the handles the
  OS would return (`0` = rejection) and threads the multiset of hooks the OS
  currently has installed plus a trace of OS hook operations.
* File reading and top-level JSON text parsing in `load_recording` are
  abstracted into the `doc : Except ReplayError Json` argument; `serde_json`
  decoding of a single event is a parameter `decode`.
* Rust `Result<T, String>` becomes `Except ReplayError T` where
  `ReplayError` / `HookError` have one constructor per distinct error string
  in the source.
-/

/-- Event model, from `recording.rs` (not under src/).
Modelled from the spec: §3 EventType — closed variant set; field types match
their uses in replay.rs/hooks.rs (`delta: i32`, `vk_code: u32`). -/
inductive MouseButton where
  | left
  | right
  | middle
deriving DecidableEq

inductive EventType where
  | mouseMove
  | mouseDown (button : MouseButton)
  | mouseUp (button : MouseButton)
  | mouseWheel (delta : Int)
  | keyDown (vk_code : Nat)
  | keyUp (vk_code : Nat)
deriving DecidableEq

/-- Modelled from the spec: §3 RecordedEvent — `{event_type, x: optional i32,
y: optional i32, time_offset_ms: u64}` (recording.rs is not under src/). -/
structure RecordedEvent where
  event_type : EventType
  x : Option Int
  y : Option Int
  time_offset_ms : Nat
deriving DecidableEq

/-- A JSON value, as `serde_json::Value`. -/
inductive Json where
  | null
  | jbool (b : Bool)
  | jnum (n : Int)
  | jstr (s : String)
  | jarr (elems : List Json)
  | jobj (fields : List (String × Json))

/-- `serde_json::Value`'s `Index<&str>`: field lookup on objects, `Null`
otherwise. -/
def Json.index (j : Json) (key : String) : Json :=
  match j with
  | .jobj fields =>
    match fields.lookup key with
    | some v => v
    | none => .null
  | _ => .null

/-- `Value::as_array`. -/
def Json.as_array : Json → Option (List Json)
  | .jarr elems => some elems
  | _ => none

/-- One constructor per distinct error string produced in replay.rs. -/
inductive ReplayError where
  /-- "Failed to read file: {e}" -/
  | readFailed
  /-- "Failed to parse JSON: {e}" -/
  | parseFailed
  /-- "Missing or invalid 'events' field in recording file" -/
  | missingEvents
  /-- "Failed to parse events: {e}" -/
  | eventsDecodeFailed
  /-- "Invalid mouse coordinates: ({x}, {y})" -/
  | invalidCoordinates (x y : Int)
  /-- "Failed to move cursor" -/
  | cursorMoveFailed
  /-- "Failed to send mouse down event" -/
  | mouseDownFailed
  /-- "Failed to send mouse up event" -/
  | mouseUpFailed
  /-- "Failed to send mouse wheel event" -/
  | mouseWheelFailed
  /-- "Invalid virtual key code: {vk}" -/
  | invalidKeyCode (vk : Nat)
  /-- "Failed to send key down event for VK code: {vk}" -/
  | keyDownFailed (vk : Nat)
  /-- "Failed to send key up event for VK code: {vk}" -/
  | keyUpFailed (vk : Nat)
deriving DecidableEq

/-- The spec's `MalformedDocument` error kind covers both replay.rs strings
raised while extracting the `events` field (§4.3, §7). -/
def ReplayError.isMalformedDocument : ReplayError → Bool
  | .missingEvents => true
  | .eventsDecodeFailed => true
  | _ => false

/-- `ReplayState` from replay.rs (f32 `speed_multiplier` as `Rat`). -/
structure ReplayState where
  is_playing : Bool
  current_events : List RecordedEvent
  current_index : Nat
  speed_multiplier : Rat
deriving DecidableEq

/-- `ReplayState::new`. -/
def ReplayState.new : ReplayState :=
  { is_playing := false
    current_events := []
    current_index := 0
    speed_multiplier := 1 }

/-- `.iter().map(|v| serde_json::from_value(v.clone())).collect::<Result<Vec<_>, _>>()`:
decode each element left to right, stopping at the first failure. -/
def decode_events (decode : Json → Except String RecordedEvent) :
    List Json → Except String (List RecordedEvent)
  | [] => .ok []
  | v :: rest =>
    match decode v with
    | .error e => .error e
    | .ok ev =>
      match decode_events decode rest with
      | .error e => .error e
      | .ok evs => .ok (ev :: evs)

/-- `ReplayState::load_recording`. `doc` is the combined outcome of
`fs::read_to_string` and `serde_json::from_str`; `decode` is
`serde_json::from_value` for one `RecordedEvent`. Returns the result
together with the state after the call (`&mut self` in the source). -/
def ReplayState.load_recording (decode : Json → Except String RecordedEvent)
    (st : ReplayState) (doc : Except ReplayError Json) :
    Except ReplayError Unit × ReplayState :=
  match doc with
  | .error e => (.error e, st)
  | .ok json =>
    match (json.index "events").as_array with
    | none => (.error .missingEvents, st)
    | some elems =>
      match decode_events decode elems with
      | .error _ => (.error .eventsDecodeFailed, st)
      | .ok evs => (.ok (), { st with current_events := evs, current_index := 0 })

/-- `ReplayState::start`. -/
def ReplayState.start (st : ReplayState) (speed : Rat) : ReplayState :=
  { st with is_playing := true, current_index := 0, speed_multiplier := speed }

/-- `ReplayState::stop`. -/
def ReplayState.stop (st : ReplayState) : ReplayState :=
  { st with is_playing := false, current_index := 0 }

/-- `ReplayState::get_progress` (f32 arithmetic modelled as exact `Rat`). -/
def ReplayState.get_progress (st : ReplayState) : Rat :=
  if st.current_events.isEmpty then 0
  else ((st.current_index : Rat) / (st.current_events.length : Rat)) * 100

/-- `ReplayState::get_next_event`; returns the optional event and the state
after the call. -/
def ReplayState.get_next_event (st : ReplayState) :
    Option RecordedEvent × ReplayState :=
  if h : st.current_index < st.current_events.length then
    (some (st.current_events.get ⟨st.current_index, h⟩),
      { st with current_index := st.current_index + 1 })
  else
    (none, st)

/-- Mouse event flags from windows_sys, as used in replay.rs. -/
def MOUSEEVENTF_LEFTDOWN : Nat := 0x0002
def MOUSEEVENTF_LEFTUP : Nat := 0x0004
def MOUSEEVENTF_RIGHTDOWN : Nat := 0x0008
def MOUSEEVENTF_RIGHTUP : Nat := 0x0010
def MOUSEEVENTF_MIDDLEDOWN : Nat := 0x0020
def MOUSEEVENTF_MIDDLEUP : Nat := 0x0040
def MOUSEEVENTF_WHEEL : Nat := 0x0800
def KEYEVENTF_KEYUP : Nat := 0x0002

/-- One OS input call as issued by `execute_event`. -/
inductive OsCall where
  | setCursorPos (x y : Int)
  | sendMouseInput (mouseData : Nat) (dwFlags : Nat)
  | sendKeyboardInput (wVk : Nat) (dwFlags : Nat)
deriving DecidableEq

/-- Rust `as u32` on an `i32` (two's complement reinterpretation). -/
def u32_of_i32 (n : Int) : Nat := (n % (2 ^ 32)).toNat

/-- `(*delta as u32) << 16` from the MouseWheel arm. -/
def wheel_mouse_data (delta : Int) : Nat := (u32_of_i32 delta * 2 ^ 16) % 2 ^ 32

def mouse_down_flag : MouseButton → Nat
  | .left => MOUSEEVENTF_LEFTDOWN
  | .right => MOUSEEVENTF_RIGHTDOWN
  | .middle => MOUSEEVENTF_MIDDLEDOWN

def mouse_up_flag : MouseButton → Nat
  | .left => MOUSEEVENTF_LEFTUP
  | .right => MOUSEEVENTF_RIGHTUP
  | .middle => MOUSEEVENTF_MIDDLEUP

/-- `ReplayState::execute_event` (Windows branch). `osOk` decides whether
each OS call (`SetCursorPos` / `SendInput`) succeeds; the returned list is
the trace of OS calls attempted, in order. -/
def ReplayState.execute_event (osOk : OsCall → Bool) (e : RecordedEvent) :
    List OsCall × Except ReplayError Unit :=
  match e.event_type with
  | .mouseMove =>
    match e.x, e.y with
    | some x, some y =>
      if x < -32768 ∨ 32767 < x ∨ y < -32768 ∨ 32767 < y then
        ([], .error (.invalidCoordinates x y))
      else
        ([.setCursorPos x y],
          if osOk (.setCursorPos x y) then .ok () else .error .cursorMoveFailed)
    | _, _ => ([], .ok ())
  | .mouseDown button =>
    ([.sendMouseInput 0 (mouse_down_flag button)],
      if osOk (.sendMouseInput 0 (mouse_down_flag button)) then .ok ()
      else .error .mouseDownFailed)
  | .mouseUp button =>
    ([.sendMouseInput 0 (mouse_up_flag button)],
      if osOk (.sendMouseInput 0 (mouse_up_flag button)) then .ok ()
      else .error .mouseUpFailed)
  | .mouseWheel delta =>
    ([.sendMouseInput (wheel_mouse_data delta) MOUSEEVENTF_WHEEL],
      if osOk (.sendMouseInput (wheel_mouse_data delta) MOUSEEVENTF_WHEEL) then .ok ()
      else .error .mouseWheelFailed)
  | .keyDown vk =>
    if 255 < vk then
      ([], .error (.invalidKeyCode vk))
    else
      ([.sendKeyboardInput (vk % 2 ^ 16) 0],
        if osOk (.sendKeyboardInput (vk % 2 ^ 16) 0) then .ok ()
        else .error (.keyDownFailed vk))
  | .keyUp vk =>
    if 255 < vk then
      ([], .error (.invalidKeyCode vk))
    else
      ([.sendKeyboardInput (vk % 2 ^ 16) KEYEVENTF_KEYUP],
        if osOk (.sendKeyboardInput (vk % 2 ^ 16) KEYEVENTF_KEYUP) then .ok ()
        else .error (.keyUpFailed vk))

/-- Iterate `get_next_event` `n` times, collecting the returned options. -/
def runNext : ReplayState → Nat → List (Option RecordedEvent) × ReplayState
  | st, 0 => ([], st)
  | st, n + 1 =>
    let step := st.get_next_event
    let rest := runNext step.2 n
    (step.1 :: rest.1, rest.2)

/-- One mutating call on a `ReplayState` (the outputs are discarded). -/
inductive ReplayOp where
  | load (doc : Except ReplayError Json)
  | start (speed : Rat)
  | stop
  | next

def applyOp (decode : Json → Except String RecordedEvent)
    (st : ReplayState) : ReplayOp → ReplayState
  | .load doc => (st.load_recording decode doc).2
  | .start speed => st.start speed
  | .stop => st.stop
  | .next => st.get_next_event.2

def runOps (decode : Json → Except String RecordedEvent)
    (st : ReplayState) (ops : List ReplayOp) : ReplayState :=
  ops.foldl (applyOp decode) st

/-- Modelled from the spec: §3 RecordingState — `{is_recording, start_instant:
optional monotonic timestamp, events}` (recording.rs is not under src/).
The monotonic clock is modelled as `Nat` milliseconds. -/
structure RecordingState where
  is_recording : Bool
  start_instant : Option Nat
  events : List RecordedEvent
deriving DecidableEq

/-- Modelled from the spec: §4.2 `add_event(e)` — appends `e` to `events` iff
`is_recording` is true; no-op otherwise (recording.rs is not under src/). -/
def RecordingState.add_event (st : RecordingState) (e : RecordedEvent) :
    RecordingState :=
  if st.is_recording then { st with events := st.events ++ [e] } else st

/-- Modelled from the spec: §4.2 `start()` — sets `is_recording = true`,
resets `start_instant` to now, clears `events`. -/
def RecordingState.start_recording (st : RecordingState) (now : Nat) :
    RecordingState :=
  { st with is_recording := true, start_instant := some now, events := [] }

/-- Modelled from the spec: §4.2 `stop()` — sets `is_recording = false` and
returns the accumulated events. -/
def RecordingState.stop_recording (st : RecordingState) :
    List RecordedEvent × RecordingState :=
  (st.events, { st with is_recording := false })

/-- Windows message codes matched by the hook callbacks. -/
def WM_MOUSEMOVE : Nat := 0x0200
def WM_LBUTTONDOWN : Nat := 0x0201
def WM_LBUTTONUP : Nat := 0x0202
def WM_RBUTTONDOWN : Nat := 0x0204
def WM_RBUTTONUP : Nat := 0x0205
def WM_MBUTTONDOWN : Nat := 0x0207
def WM_MBUTTONUP : Nat := 0x0208
def WM_MOUSEWHEEL : Nat := 0x020A
def WM_KEYDOWN : Nat := 0x0100
def WM_KEYUP : Nat := 0x0101

/-- Low 16 bits reinterpreted as an `i16`, then sign-extended (`as i16 as
i32` in the source). -/
def i16_of_bits (n : Nat) : Int :=
  if n % 2 ^ 16 < 2 ^ 15 then (n % 2 ^ 16 : Nat) else (n % 2 ^ 16 : Nat) - 2 ^ 16

/-- `((l_param >> 16) & 0xFFFF) as i16 as i32` from the WM_MOUSEWHEEL arm
(the source reads the delta out of the raw `l_param` bits). -/
def wheel_delta (l_param : Int) : Int :=
  i16_of_bits (((l_param / 2 ^ 16) % 2 ^ 16).toNat)

/-- The `match w_param` classification in `mouse_hook_proc`. -/
def classify_mouse (w_param : Nat) (l_param : Int) : Option EventType :=
  if w_param = WM_MOUSEMOVE then some .mouseMove
  else if w_param = WM_LBUTTONDOWN then some (.mouseDown .left)
  else if w_param = WM_LBUTTONUP then some (.mouseUp .left)
  else if w_param = WM_RBUTTONDOWN then some (.mouseDown .right)
  else if w_param = WM_RBUTTONUP then some (.mouseUp .right)
  else if w_param = WM_MBUTTONDOWN then some (.mouseDown .middle)
  else if w_param = WM_MBUTTONUP then some (.mouseUp .middle)
  else if w_param = WM_MOUSEWHEEL then some (.mouseWheel (wheel_delta l_param))
  else none

/-- The `match w_param` classification in `keyboard_hook_proc`. -/
def classify_keyboard (w_param : Nat) (vk_code : Nat) : Option EventType :=
  if w_param = WM_KEYDOWN then some (.keyDown vk_code)
  else if w_param = WM_KEYUP then some (.keyUp vk_code)
  else none

/-- `mouse_hook_proc` state effect. `pt` is the payload the MSLLHOOKSTRUCT
pointer refers to (`none` = null pointer); `fallback` is the `GetCursorPos`
result used then (`none` = that call failed too); `l_param` is the raw
pointer value, which the wheel arm reinterprets for its delta; `now` is the
monotonic clock reading at this invocation. The source unwraps
`start_instant`, which is always `some` while `is_recording` holds (set by
`start_recording`); `getD 0` stands for that unwrap. -/
def mouse_hook_step (st : RecordingState) (n_code : Int) (w_param : Nat)
    (pt fallback : Option (Int × Int)) (l_param : Int) (now : Nat) :
    RecordingState :=
  if 0 ≤ n_code then
    if st.is_recording then
      let time_offset_ms := now - st.start_instant.getD 0
      let xy : Option Int × Option Int :=
        match pt with
        | some p => (some p.1, some p.2)
        | none =>
          match fallback with
          | some p => (some p.1, some p.2)
          | none => (none, none)
      match classify_mouse w_param l_param with
      | some t =>
        st.add_event
          { event_type := t, x := xy.1, y := xy.2, time_offset_ms := time_offset_ms }
      | none => st
    else st
  else st

/-- `keyboard_hook_proc` state effect. `vk` is the vkCode the
KBDLLHOOKSTRUCT pointer refers to (`none` = null pointer: the source returns
early without recording anything). -/
def keyboard_hook_step (st : RecordingState) (n_code : Int) (w_param : Nat)
    (vk : Option Nat) (now : Nat) : RecordingState :=
  if 0 ≤ n_code then
    if st.is_recording then
      let time_offset_ms := now - st.start_instant.getD 0
      match vk with
      | none => st
      | some code =>
        match classify_keyboard w_param code with
        | some t =>
          st.add_event
            { event_type := t, x := none, y := none, time_offset_ms := time_offset_ms }
        | none => st
    else st
  else st

/-- One OS callback invocation of either hook, with its clock reading. -/
inductive HookInvocation where
  | mouse (n_code : Int) (w_param : Nat) (pt fallback : Option (Int × Int))
      (l_param : Int) (now : Nat)
  | keyboard (n_code : Int) (w_param : Nat) (vk : Option Nat) (now : Nat)

def HookInvocation.now : HookInvocation → Nat
  | .mouse _ _ _ _ _ t => t
  | .keyboard _ _ _ t => t

def hook_step (st : RecordingState) : HookInvocation → RecordingState
  | .mouse n w pt fb l t => mouse_hook_step st n w pt fb l t
  | .keyboard n w vk t => keyboard_hook_step st n w vk t

/-- The single serialized callback stream: both hooks' invocations, folded
in arrival order. -/
def run_hooks (st : RecordingState) (invs : List HookInvocation) :
    RecordingState :=
  invs.foldl hook_step st

/-- The event one invocation appends (if any), given the recording flag and
the session start time. -/
def emitted (recording : Bool) (start : Nat) :
    HookInvocation → Option RecordedEvent
  | .mouse n w pt fb l t =>
    if 0 ≤ n ∧ recording then
      (classify_mouse w l).map fun ty =>
        { event_type := ty
          x := match pt with
               | some p => some p.1
               | none => match fb with
                         | some p => some p.1
                         | none => none
          y := match pt with
               | some p => some p.2
               | none => match fb with
                         | some p => some p.2
                         | none => none
          time_offset_ms := t - start }
    else none
  | .keyboard n w vk t =>
    if 0 ≤ n ∧ recording then
      match vk with
      | none => none
      | some code =>
        (classify_keyboard w code).map fun ty =>
          { event_type := ty, x := none, y := none, time_offset_ms := t - start }
    else none

/-- One constructor per distinct error string in `install_hooks`. -/
inductive HookError where
  /-- "Failed to set recording state" -/
  | setRecordingStateFailed
  /-- "Failed to install mouse hook" -/
  | mouseInstallFailed
  /-- "Mouse hook already installed" -/
  | mouseAlreadySet
  /-- "Failed to install keyboard hook" -/
  | keyboardInstallFailed
  /-- "Keyboard hook already installed" -/
  | keyboardAlreadySet
deriving DecidableEq

/-- The three process-wide `OnceLock` statics of hooks.rs: whether
`RECORDING_STATE` is set, and the stored hook handles. -/
structure HookGlobals where
  recording_state_set : Bool
  mouse_hook : Option Nat
  keyboard_hook : Option Nat
deriving DecidableEq

def HookGlobals.fresh : HookGlobals :=
  { recording_state_set := false, mouse_hook := none, keyboard_hook := none }

/-- OS hook operations performed by `install_hooks`, in order. -/
inductive OsHookOp where
  | setMouseHook (res : Nat)
  | setKeyboardHook (res : Nat)
  | unhook (handle : Nat)
deriving DecidableEq

/-- `windows::install_hooks`. `mouseRes` / `kbRes` are the handles
`SetWindowsHookExA` returns for the two registrations (`0` = the OS rejected
the hook; a nonzero result means that hook is now installed). `os` is the
multiset of hook handles the OS currently has installed. Returns the
result, the globals after the call, the OS-installed multiset after the
call, and the trace of OS hook operations this call performed. -/
def install_hooks (mouseRes kbRes : Nat) (g : HookGlobals)
    (os : Multiset Nat) :
    Except HookError Unit × HookGlobals × Multiset Nat × List OsHookOp :=
  if g.recording_state_set then
    (.error .setRecordingStateFailed, g, os, [])
  else
    let g1 : HookGlobals := { g with recording_state_set := true }
    let os1 := if mouseRes ≠ 0 then os + {mouseRes} else os
    if mouseRes = 0 then
      (.error .mouseInstallFailed, g1, os1, [.setMouseHook mouseRes])
    else
      match g1.mouse_hook with
      | some _ =>
        (.error .mouseAlreadySet, g1, os1, [.setMouseHook mouseRes])
      | none =>
        let g2 : HookGlobals := { g1 with mouse_hook := some mouseRes }
        let os2 := if kbRes ≠ 0 then os1 + {kbRes} else os1
        if kbRes = 0 then
          (.error .keyboardInstallFailed, g2, os2.erase mouseRes,
            [.setMouseHook mouseRes, .setKeyboardHook kbRes, .unhook mouseRes])
        else
          match g2.keyboard_hook with
          | some _ =>
            (.error .keyboardAlreadySet, g2, os2,
              [.setMouseHook mouseRes, .setKeyboardHook kbRes])
          | none =>
            (.ok (), { g2 with keyboard_hook := some kbRes }, os2,
              [.setMouseHook mouseRes, .setKeyboardHook kbRes])

/-! Theorems. -/

theorem get_next_event_of_lt (st : ReplayState)
    (h : st.current_index < st.current_events.length) :
    st.get_next_event
      = (some (st.current_events.get ⟨st.current_index, h⟩),
        { st with current_index := st.current_index + 1 }) := by
  simp [ReplayState.get_next_event, h]

theorem get_next_event_of_ge (st : ReplayState)
    (h : st.current_events.length ≤ st.current_index) :
    st.get_next_event = (none, st) := by
  simp [ReplayState.get_next_event, Nat.not_lt.mpr h]

theorem runNext_out (n : Nat) : ∀ st : ReplayState,
    st.current_events.length - st.current_index = n →
    st.current_index ≤ st.current_events.length →
    (runNext st (n + 1)).1
      = (st.current_events.drop st.current_index).map some ++ [none] := by
  induction n with
  | zero =>
    intro st hn hle
    have hidx : st.current_index = st.current_events.length := by omega
    have hnext := get_next_event_of_ge st (le_of_eq hidx.symm)
    simp [runNext, hnext, hidx, List.drop_length]
  | succ n ih =>
    intro st hn _
    have hlt : st.current_index < st.current_events.length := by omega
    have hnext := get_next_event_of_lt st hlt
    have ihst := ih { st with current_index := st.current_index + 1 }
      (by simp; omega) (by simp; omega)
    calc (runNext st (n + 1 + 1)).1
        = st.get_next_event.1 :: (runNext st.get_next_event.2 (n + 1)).1 := rfl
      _ = some st.current_events[st.current_index]
            :: ((st.current_events.drop (st.current_index + 1)).map some ++ [none]) := by
          rw [hnext]
          simpa [List.get_eq_getElem] using ihst
      _ = (st.current_events.drop st.current_index).map some ++ [none] := by
          rw [List.drop_eq_getElem_cons hlt, List.map_cons, List.cons_append]

theorem runNext_state : ∀ (k : Nat) (st : ReplayState),
    st.current_index + k ≤ st.current_events.length →
    (runNext st k).2 = { st with current_index := st.current_index + k } := by
  intro k
  induction k with
  | zero => intro st _; simp [runNext]
  | succ k ih =>
    intro st h
    have hlt : st.current_index < st.current_events.length := by omega
    have hnext := get_next_event_of_lt st hlt
    have ihst := ih { st with current_index := st.current_index + 1 } (by simp; omega)
    calc (runNext st (k + 1)).2 = (runNext st.get_next_event.2 k).2 := rfl
      _ = { st with current_index := st.current_index + 1 + k } := by
          rw [hnext]; simpa using ihst
      _ = { st with current_index := st.current_index + (k + 1) } := by
          congr 1; omega

/-- C1: `load_recording` fails with `MalformedDocument` (the replay.rs
strings for a missing/invalid `events` field and for an element decode
failure) exactly as specified; on success it replaces `current_events` and
resets `current_index` to 0; on any failure the state is returned unchanged
(no partial load). -/
theorem load_recording_spec (decode : Json → Except String RecordedEvent)
    (st : ReplayState) (doc : Except ReplayError Json) :
    (∀ j : Json, doc = .ok j → (j.index "events").as_array = none →
      st.load_recording decode doc = (.error .missingEvents, st)) ∧
    (∀ (j : Json) (elems : List Json), doc = .ok j →
      (j.index "events").as_array = some elems →
      ∀ msg, decode_events decode elems = .error msg →
        st.load_recording decode doc = (.error .eventsDecodeFailed, st)) ∧
    (∀ (j : Json) (elems : List Json) (evs : List RecordedEvent), doc = .ok j →
      (j.index "events").as_array = some elems →
      decode_events decode elems = .ok evs →
      st.load_recording decode doc
        = (.ok (), { st with current_events := evs, current_index := 0 })) ∧
    (∀ err, (st.load_recording decode doc).1 = .error err →
      (st.load_recording decode doc).2 = st) ∧
    ReplayError.missingEvents.isMalformedDocument = true ∧
    ReplayError.eventsDecodeFailed.isMalformedDocument = true := by
  refine ⟨?_, ?_, ?_, ?_, rfl, rfl⟩
  · intro j hdoc hnone
    subst hdoc
    simp [ReplayState.load_recording, hnone]
  · intro j elems hdoc harr msg hmap
    subst hdoc
    simp [ReplayState.load_recording, harr, hmap]
  · intro j elems evs hdoc harr hmap
    subst hdoc
    simp [ReplayState.load_recording, harr, hmap]
  · intro err
    cases doc with
    | error e => intro _; rfl
    | ok j =>
      cases harr : (j.index "events").as_array with
      | none => intro _; simp [ReplayState.load_recording, harr]
      | some elems =>
        cases hmap : decode_events decode elems with
        | error msg => intro _; simp [ReplayState.load_recording, harr, hmap]
        | ok evs =>
          intro habs
          simp [ReplayState.load_recording, harr, hmap] at habs

theorem load_recording_spec_witness :
    ReplayState.new.load_recording (fun _ => .error "") (.ok (.jobj []))
      = (.error .missingEvents, ReplayState.new) :=
  (load_recording_spec (fun _ => .error "") ReplayState.new
    (.ok (.jobj []))).1 (.jobj []) rfl rfl

/-- C3: from `current_index = 0` over `N` loaded events, `N + 1` calls of
`get_next_event` return the `N` events in order followed by `none`; each
in-bounds call returns `current_events[current_index]` and advances the
index by one; any call at or past the end returns `none` and leaves the
state unchanged. -/
theorem get_next_event_spec (st : ReplayState) (h0 : st.current_index = 0) :
    (runNext st (st.current_events.length + 1)).1
      = st.current_events.map some ++ [none] ∧
    (∀ t : ReplayState, ∀ h : t.current_index < t.current_events.length,
      t.get_next_event
        = (some (t.current_events.get ⟨t.current_index, h⟩),
          { t with current_index := t.current_index + 1 })) ∧
    (∀ t : ReplayState, t.current_events.length ≤ t.current_index →
      t.get_next_event = (none, t)) := by
  refine ⟨?_, get_next_event_of_lt, get_next_event_of_ge⟩
  have h := runNext_out st.current_events.length st (by omega) (by omega)
  rw [h, h0, List.drop_zero]

theorem get_next_event_spec_witness :
    (runNext
      { is_playing := false
        current_events :=
          [{ event_type := .mouseMove, x := some 1, y := some 2, time_offset_ms := 0 }]
        current_index := 0
        speed_multiplier := 1 } 2).1
      = [some { event_type := .mouseMove, x := some 1, y := some 2,
                time_offset_ms := 0 }, none] :=
  (get_next_event_spec
    { is_playing := false
      current_events :=
        [{ event_type := .mouseMove, x := some 1, y := some 2, time_offset_ms := 0 }]
      current_index := 0
      speed_multiplier := 1 } rfl).1

/-- C8: `get_progress` is `100 * current_index / len(current_events)` for a
non-empty event list and `0` for an empty one (a percentage); from index 0
it is `100 * k / N` after `k` calls of `get_next_event` and `100` after all
`N`. -/
theorem get_progress_spec (st : ReplayState) :
    (st.current_events = [] → st.get_progress = 0) ∧
    (st.current_events ≠ [] →
      st.get_progress
        = 100 * (st.current_index : Rat) / (st.current_events.length : Rat)) ∧
    (st.current_index = 0 → ∀ k, k ≤ st.current_events.length →
      ((runNext st k).2).get_progress
        = 100 * (k : Rat) / (st.current_events.length : Rat)) ∧
    (st.current_index = 0 → st.current_events ≠ [] →
      ((runNext st st.current_events.length).2).get_progress = 100) := by
  have hlen_ne : st.current_events ≠ [] → (st.current_events.length : Rat) ≠ 0 := by
    intro hne
    exact_mod_cast fun h => hne (List.length_eq_zero.mp (by exact_mod_cast h))
  have h3 : st.current_index = 0 → ∀ k, k ≤ st.current_events.length →
      ((runNext st k).2).get_progress
        = 100 * (k : Rat) / (st.current_events.length : Rat) := by
    intro h0 k hk
    have hst := runNext_state k st (by omega)
    rw [hst]
    by_cases hnil : st.current_events = []
    · have hk0 : k = 0 := by rw [hnil] at hk; simpa using hk
      subst hk0
      simp [ReplayState.get_progress, hnil]
    · rw [ReplayState.get_progress]
      rw [if_neg (by simpa [List.isEmpty_iff] using hnil)]
      rw [show ({ st with current_index := st.current_index + k } :
            ReplayState).current_index = st.current_index + k from rfl]
      rw [h0]
      push_cast
      ring
  refine ⟨?_, ?_, h3, ?_⟩
  · intro h
    simp [ReplayState.get_progress, h]
  · intro h
    rw [ReplayState.get_progress, if_neg (by simpa [List.isEmpty_iff] using h)]
    ring
  · intro h0 hne
    rw [h3 h0 st.current_events.length le_rfl, mul_div_assoc,
      div_self (hlen_ne hne), mul_one]

theorem get_progress_spec_witness :
    ((runNext
      { is_playing := true
        current_events :=
          [{ event_type := .keyDown 65, x := none, y := none, time_offset_ms := 7 }]
        current_index := 0
        speed_multiplier := 1 } 1).2).get_progress = 100 :=
  (get_progress_spec
    { is_playing := true
      current_events :=
        [{ event_type := .keyDown 65, x := none, y := none, time_offset_ms := 7 }]
      current_index := 0
      speed_multiplier := 1 }).2.2.2 rfl (by decide)

/-- C4 counterexample: `start(-1)` stores `-1` into `speed_multiplier`, so
the field does hold a non-positive value, refuting the claim that a
non-positive speed is rejected or clamped. -/
theorem start_negative_speed_counterexample :
    (ReplayState.new.start (-1)).is_playing = true ∧
    (ReplayState.new.start (-1)).current_index = 0 ∧
    (ReplayState.new.start (-1)).speed_multiplier = -1 ∧
    ¬ 0 < (ReplayState.new.start (-1)).speed_multiplier := by
  refine ⟨rfl, rfl, rfl, ?_⟩
  norm_num [ReplayState.start, ReplayState.new]

/-- C4 amended: `start(speed)` sets `is_playing = true`, `current_index = 0`
and stores `speed` into `speed_multiplier` unconditionally — a non-positive
speed is neither rejected nor clamped. -/
theorem start_spec (st : ReplayState) (speed : Rat) :
    st.start speed
      = { st with is_playing := true, current_index := 0,
                  speed_multiplier := speed } := rfl

/-- C2 counterexample: a `MouseMove` whose `x` is absent returns `Ok` with
no OS call, not `InvalidCoordinates` as the claim requires for the
missing-coordinate case. -/
theorem execute_mouseMove_missing_counterexample :
    ReplayState.execute_event (fun _ => true)
      { event_type := .mouseMove, x := none, y := some 0, time_offset_ms := 0 }
      = ([], .ok ()) ∧
    ∀ x y : Int,
      (ReplayState.execute_event (fun _ => true)
        { event_type := .mouseMove, x := none, y := some 0,
          time_offset_ms := 0 }).2
        ≠ .error (.invalidCoordinates x y) :=
  ⟨rfl, fun _ _ h => nomatch h⟩

/-- C2 amended: for a `MouseMove` with both `x` and `y` present, each must
lie in `[-32768, 32767]`, otherwise `execute_event` fails with
`InvalidCoordinates` and attempts no OS call (in particular `x = 40000,
y = 0`); in range it issues exactly one absolute `SetCursorPos(x, y)` call,
succeeding iff the OS call does; when `x` or `y` is absent the event is
skipped: `Ok` with no OS call. -/
theorem execute_mouseMove_spec (osOk : OsCall → Bool) (e : RecordedEvent)
    (ht : e.event_type = .mouseMove) :
    (∀ x y : Int, e.x = some x → e.y = some y →
      ((x < -32768 ∨ 32767 < x ∨ y < -32768 ∨ 32767 < y) →
        ReplayState.execute_event osOk e
          = ([], .error (.invalidCoordinates x y))) ∧
      (¬(x < -32768 ∨ 32767 < x ∨ y < -32768 ∨ 32767 < y) →
        ReplayState.execute_event osOk e
          = ([.setCursorPos x y],
            if osOk (.setCursorPos x y) then .ok ()
            else .error .cursorMoveFailed))) ∧
    ((e.x = none ∨ e.y = none) →
      ReplayState.execute_event osOk e = ([], .ok ())) := by
  obtain ⟨t, ox, oy, off⟩ := e
  have ht' : t = EventType.mouseMove := ht
  subst ht'
  constructor
  · intro x y hx hy
    have hx' : ox = some x := hx
    have hy' : oy = some y := hy
    subst hx'; subst hy'
    constructor
    · intro hout
      simp only [ReplayState.execute_event]
      rw [if_pos hout]
    · intro hin
      simp only [ReplayState.execute_event]
      rw [if_neg hin]
  · rintro (hx | hy)
    · have hx' : ox = none := hx
      subst hx'
      cases oy <;> rfl
    · have hy' : oy = none := hy
      subst hy'
      cases ox <;> rfl

theorem execute_mouseMove_spec_witness :
    ReplayState.execute_event (fun _ => true)
      { event_type := .mouseMove, x := some 40000, y := some 0,
        time_offset_ms := 0 }
      = ([], .error (.invalidCoordinates 40000 0)) :=
  ((execute_mouseMove_spec (fun _ => true)
    { event_type := .mouseMove, x := some 40000, y := some 0,
      time_offset_ms := 0 }
    rfl).1 40000 0 rfl rfl).1 (by norm_num)

/-- C9: a `MouseMove` whose `x` or `y` is absent is silently skipped:
`execute_event` returns `Ok` and attempts no OS call. -/
theorem execute_mouseMove_absent_skips (osOk : OsCall → Bool)
    (e : RecordedEvent) (ht : e.event_type = .mouseMove)
    (h : e.x = none ∨ e.y = none) :
    ReplayState.execute_event osOk e = ([], .ok ()) := by
  obtain ⟨t, ox, oy, off⟩ := e
  have ht' : t = EventType.mouseMove := ht
  subst ht'
  rcases h with hx | hy
  · have hx' : ox = none := hx
    subst hx'
    cases oy <;> rfl
  · have hy' : oy = none := hy
    subst hy'
    cases ox <;> rfl

theorem execute_mouseMove_absent_skips_witness :
    ReplayState.execute_event (fun _ => false)
      { event_type := .mouseMove, x := some 5, y := none, time_offset_ms := 3 }
      = ([], .ok ()) :=
  execute_mouseMove_absent_skips (fun _ => false)
    { event_type := .mouseMove, x := some 5, y := none, time_offset_ms := 3 }
    rfl (.inr rfl)

/-- C5: for `KeyDown`/`KeyUp`, `vk_code > 255` fails with `InvalidKeyCode`
and no OS call is attempted; `vk_code ≤ 255` injects exactly one keyboard
input unit, with the (nonzero) key-up flag only for `KeyUp`, succeeding
when the OS call does. -/
theorem execute_key_spec (osOk : OsCall → Bool) (e : RecordedEvent)
    (vk : Nat) :
    (e.event_type = .keyDown vk →
      (255 < vk →
        ReplayState.execute_event osOk e = ([], .error (.invalidKeyCode vk))) ∧
      (vk ≤ 255 →
        (ReplayState.execute_event osOk e).1 = [.sendKeyboardInput vk 0] ∧
        (osOk (.sendKeyboardInput vk 0) = true →
          (ReplayState.execute_event osOk e).2 = .ok ()))) ∧
    (e.event_type = .keyUp vk →
      (255 < vk →
        ReplayState.execute_event osOk e = ([], .error (.invalidKeyCode vk))) ∧
      (vk ≤ 255 →
        (ReplayState.execute_event osOk e).1
          = [.sendKeyboardInput vk KEYEVENTF_KEYUP] ∧
        (osOk (.sendKeyboardInput vk KEYEVENTF_KEYUP) = true →
          (ReplayState.execute_event osOk e).2 = .ok ()))) ∧
    KEYEVENTF_KEYUP ≠ 0 := by
  obtain ⟨t, ox, oy, off⟩ := e
  refine ⟨?_, ?_, by decide⟩
  · intro ht
    have ht' : t = EventType.keyDown vk := ht
    subst ht'
    constructor
    · intro hgt
      simp only [ReplayState.execute_event]
      rw [if_pos hgt]
    · intro hle
      have hnot : ¬ 255 < vk := by omega
      have hmod : vk % 2 ^ 16 = vk := Nat.mod_eq_of_lt (by omega)
      constructor
      · simp only [ReplayState.execute_event]
        rw [if_neg hnot, hmod]
      · intro hok
        simp only [ReplayState.execute_event]
        rw [if_neg hnot, hmod, hok]
        simp
  · intro ht
    have ht' : t = EventType.keyUp vk := ht
    subst ht'
    constructor
    · intro hgt
      simp only [ReplayState.execute_event]
      rw [if_pos hgt]
    · intro hle
      have hnot : ¬ 255 < vk := by omega
      have hmod : vk % 2 ^ 16 = vk := Nat.mod_eq_of_lt (by omega)
      constructor
      · simp only [ReplayState.execute_event]
        rw [if_neg hnot, hmod]
      · intro hok
        simp only [ReplayState.execute_event]
        rw [if_neg hnot, hmod, hok]
        simp

theorem execute_key_spec_witness :
    ReplayState.execute_event (fun _ => true)
      { event_type := .keyDown 300, x := none, y := none, time_offset_ms := 0 }
      = ([], .error (.invalidKeyCode 300)) :=
  ((execute_key_spec (fun _ => true)
    { event_type := .keyDown 300, x := none, y := none, time_offset_ms := 0 }
    300).1 rfl).1 (by omega)

theorem load_recording_state_cases (decode : Json → Except String RecordedEvent)
    (st : ReplayState) (doc : Except ReplayError Json) :
    (st.load_recording decode doc).2 = st ∨
    ∃ evs, (st.load_recording decode doc).2
      = { st with current_events := evs, current_index := 0 } := by
  cases doc with
  | error e => exact .inl rfl
  | ok j =>
    cases harr : (j.index "events").as_array with
    | none => left; simp [ReplayState.load_recording, harr]
    | some elems =>
      cases hm : decode_events decode elems with
      | error m => left; simp [ReplayState.load_recording, harr, hm]
      | ok evs =>
        right
        exact ⟨evs, by simp [ReplayState.load_recording, harr, hm]⟩

theorem applyOp_preserves (decode : Json → Except String RecordedEvent)
    (st : ReplayState) (op : ReplayOp)
    (h : st.current_index ≤ st.current_events.length) :
    (applyOp decode st op).current_index
      ≤ (applyOp decode st op).current_events.length := by
  cases op with
  | load doc =>
    have hgoal : applyOp decode st (ReplayOp.load doc)
        = (st.load_recording decode doc).2 := rfl
    rw [hgoal]
    rcases load_recording_state_cases decode st doc with h2 | ⟨evs, h2⟩
    · rw [h2]; exact h
    · rw [h2]; exact Nat.zero_le _
  | start speed => exact Nat.zero_le _
  | stop => exact Nat.zero_le _
  | next =>
    have hgoal : applyOp decode st ReplayOp.next = st.get_next_event.2 := rfl
    rw [hgoal]
    by_cases hlt : st.current_index < st.current_events.length
    · rw [get_next_event_of_lt st hlt]
      simpa using hlt
    · rw [get_next_event_of_ge st (by omega)]
      exact h

theorem runOps_invariant (decode : Json → Except String RecordedEvent) :
    ∀ (ops : List ReplayOp) (st : ReplayState),
    st.current_index ≤ st.current_events.length →
    (runOps decode st ops).current_index
      ≤ (runOps decode st ops).current_events.length := by
  intro ops
  induction ops with
  | nil => intro st h; simpa [runOps] using h
  | cons op ops ih =>
    intro st h
    simpa [runOps, List.foldl_cons] using
      ih (applyOp decode st op) (applyOp_preserves decode st op h)

theorem get_progress_bounds (st : ReplayState)
    (h : st.current_index ≤ st.current_events.length) :
    0 ≤ st.get_progress ∧ st.get_progress ≤ 100 := by
  rw [ReplayState.get_progress]
  split
  · norm_num
  · rename_i hne
    have hlen : 0 < (st.current_events.length : Rat) := by
      have : st.current_events ≠ [] := by
        simpa [List.isEmpty_iff] using hne
      have : 0 < st.current_events.length := List.length_pos.mpr this
      exact_mod_cast this
    have hle : (st.current_index : Rat) ≤ (st.current_events.length : Rat) := by
      exact_mod_cast h
    constructor
    · positivity
    · have hdiv : (st.current_index : Rat) / (st.current_events.length : Rat) ≤ 1 :=
        (div_le_one hlen).mpr hle
      calc ((st.current_index : Rat) / (st.current_events.length : Rat)) * 100
          ≤ 1 * 100 := by
            exact mul_le_mul_of_nonneg_right hdiv (by norm_num)
        _ = 100 := one_mul 100

/-- C10: every `ReplayState` reachable from `new` through `load_recording`,
`start`, `stop` and `get_next_event` satisfies
`current_index ≤ len(current_events)`, and `get_progress` stays within
`[0, 100]`. -/
theorem replay_reachable_invariant (decode : Json → Except String RecordedEvent)
    (ops : List ReplayOp) :
    (runOps decode ReplayState.new ops).current_index
      ≤ (runOps decode ReplayState.new ops).current_events.length ∧
    0 ≤ (runOps decode ReplayState.new ops).get_progress ∧
    (runOps decode ReplayState.new ops).get_progress ≤ 100 := by
  have h := runOps_invariant decode ops ReplayState.new (Nat.le_refl 0)
  exact ⟨h, (get_progress_bounds _ h).1, (get_progress_bounds _ h).2⟩

theorem add_singleton_erase (os : Multiset Nat) (m : Nat) :
    (os + {m}).erase m = os := by
  rw [add_comm, Multiset.singleton_add, Multiset.erase_cons_head]

/-- C6: from fresh globals, `install_hooks` registers the mouse hook first,
then the keyboard hook; when the keyboard registration fails after the
mouse one succeeded, the mouse hook is unhooked before the error returns;
on every error return the OS-installed multiset is unchanged
(all-or-nothing); and once the recording state is set, a further call fails
as a caller error with no state change and no OS call. -/
theorem install_hooks_spec (mouseRes kbRes : Nat) (os : Multiset Nat) :
    (mouseRes = 0 →
      install_hooks mouseRes kbRes HookGlobals.fresh os
        = (.error .mouseInstallFailed,
            { recording_state_set := true, mouse_hook := none,
              keyboard_hook := none },
            os, [.setMouseHook 0])) ∧
    (mouseRes ≠ 0 → kbRes = 0 →
      install_hooks mouseRes kbRes HookGlobals.fresh os
        = (.error .keyboardInstallFailed,
            { recording_state_set := true, mouse_hook := some mouseRes,
              keyboard_hook := none },
            os, [.setMouseHook mouseRes, .setKeyboardHook 0,
                 .unhook mouseRes])) ∧
    (mouseRes ≠ 0 → kbRes ≠ 0 →
      install_hooks mouseRes kbRes HookGlobals.fresh os
        = (.ok (),
            { recording_state_set := true, mouse_hook := some mouseRes,
              keyboard_hook := some kbRes },
            os + {mouseRes} + {kbRes},
            [.setMouseHook mouseRes, .setKeyboardHook kbRes])) ∧
    (∀ (err : HookError) (g : HookGlobals) (os2 : Multiset Nat)
        (tr : List OsHookOp),
      install_hooks mouseRes kbRes HookGlobals.fresh os
        = (.error err, g, os2, tr) → os2 = os) ∧
    (∀ (g : HookGlobals) (os2 : Multiset Nat), g.recording_state_set = true →
      install_hooks mouseRes kbRes g os2
        = (.error .setRecordingStateFailed, g, os2, [])) := by
  have h1 : mouseRes = 0 →
      install_hooks mouseRes kbRes HookGlobals.fresh os
        = (.error .mouseInstallFailed,
            { recording_state_set := true, mouse_hook := none,
              keyboard_hook := none },
            os, [.setMouseHook 0]) := by
    intro h0
    subst h0
    simp [install_hooks, HookGlobals.fresh]
  have h2 : mouseRes ≠ 0 → kbRes = 0 →
      install_hooks mouseRes kbRes HookGlobals.fresh os
        = (.error .keyboardInstallFailed,
            { recording_state_set := true, mouse_hook := some mouseRes,
              keyboard_hook := none },
            os, [.setMouseHook mouseRes, .setKeyboardHook 0,
                 .unhook mouseRes]) := by
    intro hm hk
    subst hk
    simp [install_hooks, HookGlobals.fresh, hm, add_singleton_erase]
  have h3 : mouseRes ≠ 0 → kbRes ≠ 0 →
      install_hooks mouseRes kbRes HookGlobals.fresh os
        = (.ok (),
            { recording_state_set := true, mouse_hook := some mouseRes,
              keyboard_hook := some kbRes },
            os + {mouseRes} + {kbRes},
            [.setMouseHook mouseRes, .setKeyboardHook kbRes]) := by
    intro hm hk
    simp [install_hooks, HookGlobals.fresh, hm, hk]
  refine ⟨h1, h2, h3, ?_, ?_⟩
  · intro err g os2 tr heq
    by_cases hm : mouseRes = 0
    · rw [h1 hm] at heq
      simp only [Prod.mk.injEq] at heq
      exact heq.2.2.1.symm
    · by_cases hk : kbRes = 0
      · rw [h2 hm hk] at heq
        simp only [Prod.mk.injEq] at heq
        exact heq.2.2.1.symm
      · rw [h3 hm hk] at heq
        simp at heq
  · intro g os2 hset
    simp [install_hooks, hset]

theorem install_hooks_spec_witness :
    install_hooks 1 0 HookGlobals.fresh 0
      = (.error .keyboardInstallFailed,
          { recording_state_set := true, mouse_hook := some 1,
            keyboard_hook := none },
          0, [.setMouseHook 1, .setKeyboardHook 0, .unhook 1]) :=
  (install_hooks_spec 1 0 0).2.1 (by decide) rfl

theorem hook_step_eq (st : RecordingState) (inv : HookInvocation) :
    hook_step st inv
      = { st with events := st.events
          ++ (emitted st.is_recording (st.start_instant.getD 0) inv).toList } := by
  obtain ⟨rec, si, ev⟩ := st
  cases inv with
  | mouse n w pt fb l t =>
    show mouse_hook_step ⟨rec, si, ev⟩ n w pt fb l t = _
    by_cases hn : 0 ≤ n
    · cases rec with
      | false => simp [mouse_hook_step, emitted, hn]
      | true =>
        cases hcl : classify_mouse w l with
        | none =>
          cases pt <;> cases fb <;>
            simp [mouse_hook_step, emitted, hn, hcl]
        | some ty =>
          cases pt <;> cases fb <;>
            simp [mouse_hook_step, emitted, RecordingState.add_event, hn, hcl]
    · simp [mouse_hook_step, emitted, hn]
  | keyboard n w vk t =>
    show keyboard_hook_step ⟨rec, si, ev⟩ n w vk t = _
    by_cases hn : 0 ≤ n
    · cases rec with
      | false => simp [keyboard_hook_step, emitted, hn]
      | true =>
        cases vk with
        | none => simp [keyboard_hook_step, emitted, hn]
        | some code =>
          cases hcl : classify_keyboard w code with
          | none => simp [keyboard_hook_step, emitted, hn, hcl]
          | some ty =>
            simp [keyboard_hook_step, emitted, RecordingState.add_event, hn, hcl]
    · simp [keyboard_hook_step, emitted, hn]

theorem run_hooks_events : ∀ (invs : List HookInvocation) (st : RecordingState),
    (run_hooks st invs).events
      = st.events
        ++ invs.filterMap (emitted st.is_recording (st.start_instant.getD 0)) := by
  intro invs
  induction invs with
  | nil => intro st; simp [run_hooks]
  | cons inv invs ih =>
    intro st
    have hstep := hook_step_eq st inv
    calc (run_hooks st (inv :: invs)).events
        = (run_hooks (hook_step st inv) invs).events := rfl
      _ = (hook_step st inv).events
          ++ invs.filterMap (emitted (hook_step st inv).is_recording
              ((hook_step st inv).start_instant.getD 0)) := ih _
      _ = st.events ++ (inv :: invs).filterMap
            (emitted st.is_recording (st.start_instant.getD 0)) := by
          rw [hstep]
          cases hem : emitted st.is_recording (st.start_instant.getD 0) inv <;>
            simp [List.filterMap_cons, hem]

theorem emitted_time (recording : Bool) (start : Nat) (inv : HookInvocation)
    (e : RecordedEvent) (h : emitted recording start inv = some e) :
    e.time_offset_ms = inv.now - start := by
  cases inv with
  | mouse n w pt fb l t =>
    simp only [emitted] at h
    by_cases hc : 0 ≤ n ∧ recording = true
    · rw [if_pos hc] at h
      cases hcl : classify_mouse w l with
      | none => rw [hcl] at h; simp at h
      | some ty =>
        rw [hcl] at h
        simp only [Option.map_some'] at h
        injection h with h
        subst h
        rfl
    · rw [if_neg hc] at h
      exact absurd h (by simp)
  | keyboard n w vk t =>
    simp only [emitted] at h
    by_cases hc : 0 ≤ n ∧ recording = true
    · rw [if_pos hc] at h
      cases vk with
      | none => simp at h
      | some code =>
        dsimp only at h
        cases hcl : classify_keyboard w code with
        | none => rw [hcl] at h; simp at h
        | some ty =>
          rw [hcl] at h
          simp only [Option.map_some'] at h
          injection h with h
          subst h
          rfl
    · rw [if_neg hc] at h
      exact absurd h (by simp)

/-- C7: a recording session started at `now0` and fed any interleaved
mouse/keyboard callback stream whose clock readings are non-decreasing (the
monotonic clock) yields, on stop, exactly the per-invocation appends, each
carrying `time_offset_ms = now - now0`, and their offsets are non-decreasing
in append order. -/
theorem recording_offsets_monotone (st : RecordingState) (now0 : Nat)
    (invs : List HookInvocation)
    (hmono : List.Chain' (· ≤ ·) (invs.map HookInvocation.now)) :
    ((run_hooks (st.start_recording now0) invs).stop_recording).1
      = invs.filterMap (emitted true now0) ∧
    List.Chain' (· ≤ ·)
      (((run_hooks (st.start_recording now0) invs).stop_recording).1.map
        RecordedEvent.time_offset_ms) ∧
    (∀ (inv : HookInvocation) (e : RecordedEvent),
      emitted true now0 inv = some e → e.time_offset_ms = inv.now - now0) := by
  have hev : ((run_hooks (st.start_recording now0) invs).stop_recording).1
      = invs.filterMap (emitted true now0) := by
    have h := run_hooks_events invs (st.start_recording now0)
    simpa [RecordingState.stop_recording, RecordingState.start_recording] using h
  refine ⟨hev, ?_, fun inv e h => emitted_time true now0 inv e h⟩
  rw [hev]
  rw [List.chain'_iff_pairwise] at hmono ⊢
  rw [List.pairwise_map] at hmono ⊢
  exact List.Pairwise.filterMap (emitted true now0)
    (fun a b hab x hx y hy => by
      rw [emitted_time true now0 a x (Option.mem_def.mp hx),
        emitted_time true now0 b y (Option.mem_def.mp hy)]
      exact Nat.sub_le_sub_right hab now0) hmono

theorem recording_offsets_monotone_witness :
    ((run_hooks
        (RecordingState.start_recording
          { is_recording := false, start_instant := none, events := [] } 10)
        [.mouse 0 WM_MOUSEMOVE (some (3, 4)) none 0 12,
         .keyboard 0 WM_KEYDOWN (some 65) 15]).stop_recording).1
      = [{ event_type := .mouseMove, x := some 3, y := some 4,
           time_offset_ms := 2 },
         { event_type := .keyDown 65, x := none, y := none,
           time_offset_ms := 5 }] := by
  have h := (recording_offsets_monotone
    { is_recording := false, start_instant := none, events := [] } 10
    [.mouse 0 WM_MOUSEMOVE (some (3, 4)) none 0 12,
     .keyboard 0 WM_KEYDOWN (some 65) 15]
    (by norm_num [HookInvocation.now, List.chain'_cons])).1
  rw [h]
  rfl
